import Mathlib

/-!
Verification development for the QuizFlow / BrainFuel feedback pages.

The repository holds two near-identical single-page feedback sites:
the rich multi-step variant in src/app/page.tsx (namespace QuizFlow below)
and the simple single-step variant in src/unnamed/part_000 (namespace
BrainFuel below).  The definitions embed the review synchronization and
aggregation pipeline of those files: the paged loader, the realtime and
optimistic merge step, the derived distribution, the view filter reset,
the form validation wizard, and the submit payload construction.
Machine numbers are modelled as Int and exact rationals.
-/

/-- Embeds clampRating from src/unnamed/part_000 line 40:
Math.max(1, Math.min(5, n)).  The rich variant inlines the same
expression at its distribution and payload sites. -/
def clampRating (n : Int) : Int := max 1 (min 5 n)

/-- The fixed page size used by both loaders (pageSize = 500 in both files). -/
def pageSize : Nat := 500

/-- Embeds the JavaScript Math.round on a nonnegative exact rational:
round half toward positive infinity, that is the floor of q + 1/2.
Both distribution computations apply it to (sum / total) * 10. -/
def jsRound (q : ℚ) : ℤ := ⌊q + 1 / 2⌋

/-- Embeds the JavaScript String.prototype.trim used throughout both
submit paths: surrounding whitespace is dropped from both ends of the
text, with the whitespace predicate on characters standing for the
JavaScript whitespace set. -/
def jsTrim (s : String) : String :=
  ⟨((s.data.dropWhile Char.isWhitespace).reverse.dropWhile Char.isWhitespace).reverse⟩

namespace QuizFlow

/-- The role union type of the rich variant: "student" | "faculty". -/
inductive Role where
  | student
  | faculty
deriving DecidableEq, Repr

/-- Embeds the Review type of the lib/reviews module staged in
src/app/layout.tsx lines 40-55 (the rich deployment): role there is
student, faculty or null, modelled as an Option; ratings are integers
stored by the remote service. -/
structure Review where
  id : String
  created_at : String
  name : String
  role : Option Role
  rating : Int
  experience : String
  reliability_rating : Int
  would_recommend : Bool
  security_issues : Option String
  bugs_glitches : Option String
  database_issues : Option String
  feature_requests : Option String
  ui_ux_feedback : Option String
  other_feedback : Option String
deriving DecidableEq, Repr

/-- Embeds the merge step shared by the realtime INSERT handler
(src/app/page.tsx lines 284-296) and the optimistic submit merge
(lines 601-605): prev.some((r) => r.id === next.id) ? prev : [next, ...prev]. -/
def mergeReview (prev : List Review) (next : Review) : List Review :=
  if prev.any (fun r => r.id == next.id) then prev else next :: prev

/-- The five star buckets of the distribution record
({ 1: 0, 2: 0, 3: 0, 4: 0, 5: 0 } in the source). -/
structure Counts where
  s1 : Nat
  s2 : Nat
  s3 : Nat
  s4 : Nat
  s5 : Nat
deriving DecidableEq, Repr

/-- Embeds counts[k]++ for the five integer keys: the bucket whose key
equals k is incremented; a key outside 1..5 would touch none of the five
buckets (in the source it would create a separate object entry). -/
def Counts.bump (c : Counts) (k : Int) : Counts :=
  if k = 1 then { c with s1 := c.s1 + 1 }
  else if k = 2 then { c with s2 := c.s2 + 1 }
  else if k = 3 then { c with s3 := c.s3 + 1 }
  else if k = 4 then { c with s4 := c.s4 + 1 }
  else if k = 5 then { c with s5 := c.s5 + 1 }
  else c

/-- Embeds reviews.reduce((sum, r) => sum + Math.max(1, Math.min(5, r.rating)), 0)
from src/app/page.tsx lines 219-224. -/
def ratingSum (reviews : List Review) : Int :=
  reviews.foldl (fun sum r => sum + clampRating r.rating) 0

/-- The derived distribution record { counts, total, avg }. -/
structure Distribution where
  counts : Counts
  total : Nat
  avg : ℚ
deriving DecidableEq, Repr

/-- Embeds the distribution useMemo of src/app/page.tsx lines 209-229:
one pass filling the five buckets at the clamped rating, total =
reviews.length, and avg = 0 when total is 0, otherwise
Math.round((sum / total) * 10) / 10 over the clamped rating sum. -/
def distribution (reviews : List Review) : Distribution :=
  let counts := reviews.foldl (fun c r => c.bump (clampRating r.rating)) ⟨0, 0, 0, 0, 0⟩
  let total := reviews.length
  let avg : ℚ :=
    if total = 0 then 0
    else ((jsRound ((ratingSum reviews : ℚ) / (total : ℚ) * 10) : ℚ)) / 10
  { counts := counts, total := total, avg := avg }

/-- Follows the spec words for the aggregation claim: the average is
round(sum(clamp(r.rating, 1, 5) for r in C) / len(C), 1) when the
collection is nonempty and 0 otherwise, with rounding to one decimal
realized as jsRound of ten times the quotient, divided by ten. -/
def avgSpec (reviews : List Review) : ℚ :=
  if reviews.length = 0 then 0
  else ((jsRound (((reviews.map (fun r => clampRating r.rating)).sum : ℚ)
      / (reviews.length : ℚ) * 10) : ℚ)) / 10

end QuizFlow

section MergeLemmas

open QuizFlow

lemma mergeReview_mem (prev : List Review) (next : Review)
    (h : next.id ∈ prev.map Review.id) : mergeReview prev next = prev := by
  unfold mergeReview
  rw [if_pos]
  rw [List.any_eq_true]
  rcases List.mem_map.mp h with ⟨r, hr, hid⟩
  exact ⟨r, hr, by simp [hid]⟩

lemma mergeReview_not_mem (prev : List Review) (next : Review)
    (h : next.id ∉ prev.map Review.id) : mergeReview prev next = next :: prev := by
  unfold mergeReview
  rw [if_neg]
  intro hany
  rcases List.any_eq_true.mp hany with ⟨r, hr, hid⟩
  exact h (List.mem_map.mpr ⟨r, hr, (beq_iff_eq.mp hid).symm ▸ rfl⟩)

lemma mergeReview_nodup (prev : List Review) (next : Review)
    (h : (prev.map Review.id).Nodup) :
    ((mergeReview prev next).map Review.id).Nodup := by
  by_cases hmem : next.id ∈ prev.map Review.id
  · rw [mergeReview_mem prev next hmem]; exact h
  · rw [mergeReview_not_mem prev next hmem]
    rw [List.map_cons, List.nodup_cons]
    constructor
    · exact hmem
    · exact h

lemma foldl_mergeReview_nodup (incoming : List Review) :
    ∀ initial : List Review, (initial.map Review.id).Nodup →
      (((incoming.foldl mergeReview initial).map Review.id)).Nodup := by
  induction incoming with
  | nil => intro initial h; simpa using h
  | cons x xs ih =>
      intro initial h
      simpa using ih (mergeReview initial x) (mergeReview_nodup initial x h)

end MergeLemmas

section DistributionLemmas

open QuizFlow

lemma bump_s1 (c : Counts) (k : Int) :
    (c.bump k).s1 = c.s1 + (if k = 1 then 1 else 0) := by
  unfold Counts.bump; split_ifs <;> simp_all

lemma bump_s2 (c : Counts) (k : Int) :
    (c.bump k).s2 = c.s2 + (if k = 2 then 1 else 0) := by
  unfold Counts.bump; split_ifs <;> simp_all

lemma bump_s3 (c : Counts) (k : Int) :
    (c.bump k).s3 = c.s3 + (if k = 3 then 1 else 0) := by
  unfold Counts.bump; split_ifs <;> simp_all

lemma bump_s4 (c : Counts) (k : Int) :
    (c.bump k).s4 = c.s4 + (if k = 4 then 1 else 0) := by
  unfold Counts.bump; split_ifs <;> simp_all

lemma bump_s5 (c : Counts) (k : Int) :
    (c.bump k).s5 = c.s5 + (if k = 5 then 1 else 0) := by
  unfold Counts.bump; split_ifs <;> simp_all

lemma foldl_bump_proj (proj : Counts → Nat) (v : Int)
    (hb : ∀ c k, proj (c.bump k) = proj c + (if k = v then 1 else 0)) :
    ∀ (l : List Review) (c : Counts),
      proj (l.foldl (fun c r => c.bump (clampRating r.rating)) c)
        = proj c + (l.filter (fun r => clampRating r.rating = v)).length := by
  intro l
  induction l with
  | nil => intro c; simp
  | cons x xs ih =>
      intro c
      rw [List.foldl_cons, ih, hb]
      by_cases hx : clampRating x.rating = v
      · simp [hx, List.filter]; omega
      · simp [hx, List.filter]

lemma clampRating_mem (n : Int) : 1 ≤ clampRating n ∧ clampRating n ≤ 5 := by
  unfold clampRating; omega

lemma filter_clamp_partition (l : List Review) :
    (l.filter (fun r => clampRating r.rating = 1)).length
      + (l.filter (fun r => clampRating r.rating = 2)).length
      + (l.filter (fun r => clampRating r.rating = 3)).length
      + (l.filter (fun r => clampRating r.rating = 4)).length
      + (l.filter (fun r => clampRating r.rating = 5)).length = l.length := by
  induction l with
  | nil => simp
  | cons x xs ih =>
      have hx := clampRating_mem x.rating
      have hcase : clampRating x.rating = 1 ∨ clampRating x.rating = 2 ∨
          clampRating x.rating = 3 ∨ clampRating x.rating = 4 ∨
          clampRating x.rating = 5 := by omega
      rcases hcase with h | h | h | h | h <;>
        simp only [List.filter, h, List.length_cons] <;> norm_num <;> omega

lemma ratingSum_eq_map_sum (reviews : List Review) :
    ratingSum reviews = (reviews.map (fun r => clampRating r.rating)).sum := by
  unfold ratingSum
  have aux : ∀ (l : List Review) (s : Int),
      l.foldl (fun sum r => sum + clampRating r.rating) s
        = s + (l.map (fun r => clampRating r.rating)).sum := by
    intro l
    induction l with
    | nil => intro s; simp
    | cons x xs ih => intro s; rw [List.foldl_cons, ih]; simp; omega
  simpa using aux reviews 0

end DistributionLemmas

namespace QuizFlow

/-- The outcome of one range query against the remote store: a batch of
records, or an error carrying a message. -/
inductive PageResult where
  | ok (batch : List Review)
  | fail (msg : String)
deriving DecidableEq, Repr

/-- The slice of component state touched by the loader: the in-memory
review collection and the surfaced error message. -/
structure LoadState where
  reviews : List Review
  errMsg : Option String
deriving DecidableEq, Repr

/-- Embeds the page loop of load in src/app/page.tsx lines 256-275,
driven by the sequence of responses the remote store returns in order.
A batch shorter than pageSize ends the loop and commits the accumulated
records wholesale with setReviews(all); a full batch continues to the
next page; an error sets the error state and returns at once, leaving
the review collection untouched and ignoring the remaining responses. -/
def runLoadAux : List PageResult → List Review → LoadState → LoadState
  | [], _, s => s
  | PageResult.ok batch :: rest, acc, s =>
      if batch.length < pageSize then { s with reviews := acc ++ batch }
      else runLoadAux rest (acc ++ batch) s
  | PageResult.fail m :: _, _, s => { s with errMsg := some m }

/-- Embeds a whole run of load: setError(null) first, then the page loop
starting from an empty accumulator. -/
def runLoad (pages : List PageResult) (s : LoadState) : LoadState :=
  runLoadAux pages [] { s with errMsg := none }

/-- Embeds the request count of the page loop against a remote collection
with remaining records still ahead of the current offset: the range query
at the current offset returns min pageSize remaining records, the loop
stops when that batch is short, and otherwise advances the offset by
pageSize, leaving remaining - pageSize records ahead. -/
def pagesRequested (remaining : Nat) : Nat :=
  if remaining < pageSize then 1
  else 1 + pagesRequested (remaining - pageSize)
termination_by remaining
decreasing_by simp only [pageSize] at *; omega

end QuizFlow

section LoaderLemmas

open QuizFlow

lemma runLoadAux_fullPages (good : List (List Review)) :
    ∀ (acc : List Review) (tail : List PageResult) (s : LoadState),
      (∀ b ∈ good, pageSize ≤ b.length) →
      runLoadAux (good.map PageResult.ok ++ tail) acc s
        = runLoadAux tail (acc ++ good.flatten) s := by
  induction good with
  | nil => intro acc tail s _; simp
  | cons b bs ih =>
      intro acc tail s hfull
      have hb : pageSize ≤ b.length := hfull b (by simp)
      rw [List.map_cons, List.cons_append, runLoadAux, if_neg (by omega)]
      rw [ih (acc ++ b) tail s (fun x hx => hfull x (by simp [hx]))]
      simp

end LoaderLemmas

namespace QuizFlow

/-- Embeds the FormData interface of src/app/page.tsx lines 25-38.
wouldRecommend is boolean or null in the source, here an Option. -/
structure FormData where
  name : String
  role : Role
  rating : Int
  experience : String
  reliabilityRating : Int
  wouldRecommend : Option Bool
  securityIssues : String
  bugsGlitches : String
  databaseIssues : String
  featureRequests : String
  uiUxFeedback : String
  otherFeedback : String
deriving DecidableEq, Repr

/-- Embeds initialForm of src/app/page.tsx lines 40-53. -/
def initialForm : FormData :=
  { name := ""
    role := Role.student
    rating := 0
    experience := ""
    reliabilityRating := 0
    wouldRecommend := none
    securityIssues := ""
    bugsGlitches := ""
    databaseIssues := ""
    featureRequests := ""
    uiUxFeedback := ""
    otherFeedback := "" }

/-- Embeds validateStep of src/app/page.tsx lines 525-542: step 0 checks
the trimmed name length (minimum 2) and the rating, step 1 checks the
experience text, the reliability rating and the recommend answer, and
every later step validates vacuously. -/
def validateStep (s : Nat) (f : FormData) : Option String :=
  match s with
  | 0 =>
      if (jsTrim f.name).length < 2 then some "Please enter your name (at least 2 characters)."
      else if f.rating < 1 then some "Please select an overall rating."
      else none
  | 1 =>
      if (jsTrim f.experience).length < 3 then some "Please share your experience (at least a few words)."
      else if f.reliabilityRating < 1 then some "Please rate the reliability."
      else if f.wouldRecommend = none then some "Please tell us whether you would recommend QuizFlow."
      else none
  | _ => none

/-- The multi-step form state: the step index, the form fields, the last
field-level validation message shown by a blocked Next, and the number of
remote insert requests issued so far (instrumentation for the claim that
validation blocks the network). -/
structure Wizard where
  step : Nat
  form : FormData
  fieldMessage : Option String
  inserts : Nat
deriving DecidableEq, Repr

/-- The user interactions of the multi-step form.  Each edit event names
one form field; the navigation events are the Back, Skip, Next and Submit
buttons and the reset of the success screen. -/
inductive FormEvent where
  | editName (v : String)
  | editRole (v : Role)
  | editRating (v : Int)
  | editExperience (v : String)
  | editReliability (v : Int)
  | editRecommend (v : Bool)
  | editSecurity (v : String)
  | editBugs (v : String)
  | editDatabase (v : String)
  | editFeatures (v : String)
  | editUiUx (v : String)
  | editOther (v : String)
  | next
  | prev
  | skip
  | submit
  | reset
deriving DecidableEq, Repr

/-- Embeds the event handling of the multi-step form in src/app/page.tsx.
Each field edit is guarded by the step that renders its input
(stepRenderers[step] at line 1289: name, role and rating on step 0,
experience, reliability and recommend on step 1, the issue fields on
step 2, the suggestion fields on step 3).  next embeds nextStep lines
544-551: a validation error only shows the message, otherwise the step
advances, capped at 3.  prev embeds prevStep (floor at 0), skip embeds
skipStep guarded by its render condition step greater or equal 2 and
less than 3 (line 1322), submit is rendered only on step 3 (line 1333)
and issues the one remote insert, and reset embeds resetForm. -/
def applyFormEvent (w : Wizard) (e : FormEvent) : Wizard :=
  match e with
  | FormEvent.editName v =>
      if w.step = 0 then { w with form := { w.form with name := v } } else w
  | FormEvent.editRole v =>
      if w.step = 0 then { w with form := { w.form with role := v } } else w
  | FormEvent.editRating v =>
      if w.step = 0 then { w with form := { w.form with rating := v } } else w
  | FormEvent.editExperience v =>
      if w.step = 1 then { w with form := { w.form with experience := v } } else w
  | FormEvent.editReliability v =>
      if w.step = 1 then { w with form := { w.form with reliabilityRating := v } } else w
  | FormEvent.editRecommend v =>
      if w.step = 1 then { w with form := { w.form with wouldRecommend := some v } } else w
  | FormEvent.editSecurity v =>
      if w.step = 2 then { w with form := { w.form with securityIssues := v } } else w
  | FormEvent.editBugs v =>
      if w.step = 2 then { w with form := { w.form with bugsGlitches := v } } else w
  | FormEvent.editDatabase v =>
      if w.step = 2 then { w with form := { w.form with databaseIssues := v } } else w
  | FormEvent.editFeatures v =>
      if w.step = 3 then { w with form := { w.form with featureRequests := v } } else w
  | FormEvent.editUiUx v =>
      if w.step = 3 then { w with form := { w.form with uiUxFeedback := v } } else w
  | FormEvent.editOther v =>
      if w.step = 3 then { w with form := { w.form with otherFeedback := v } } else w
  | FormEvent.next =>
      match validateStep w.step w.form with
      | some m => { w with fieldMessage := some m }
      | none => { w with step := min (w.step + 1) 3 }
  | FormEvent.prev => { w with step := w.step - 1 }
  | FormEvent.skip =>
      if 2 ≤ w.step ∧ w.step < 3 then { w with step := min (w.step + 1) 3 } else w
  | FormEvent.submit =>
      if w.step = 3 then { w with inserts := w.inserts + 1 } else w
  | FormEvent.reset => { w with form := initialForm, step := 0 }

/-- The mount state of the form component: step 0, pristine form, no
message, no insert issued. -/
def initWizard : Wizard :=
  { step := 0, form := initialForm, fieldMessage := none, inserts := 0 }

/-- Runs a sequence of user interactions from the mount state. -/
def runWizard (events : List FormEvent) : Wizard :=
  events.foldl applyFormEvent initWizard

/-- Embeds the ReviewInsert type of the lib/reviews module staged in
src/app/layout.tsx lines 57-70 (the rich deployment): role is not
nullable there, and the six optional text fields are string or null. -/
structure ReviewInsert where
  name : String
  role : Role
  rating : Int
  experience : String
  reliability_rating : Int
  would_recommend : Bool
  security_issues : Option String
  bugs_glitches : Option String
  database_issues : Option String
  feature_requests : Option String
  ui_ux_feedback : Option String
  other_feedback : Option String
deriving DecidableEq, Repr

/-- Embeds the payload literal of onSubmit in src/app/page.tsx lines
573-586: trimmed name and experience, ratings clamped with
Math.max(1, Math.min(5, _)), wouldRecommend null-coalesced to true, and
each optional text field sent as trimmed text or null when the trimmed
text is empty (the JavaScript expression field.trim() || null). -/
def buildPayload (f : FormData) : ReviewInsert :=
  { name := jsTrim f.name
    role := f.role
    rating := max 1 (min 5 f.rating)
    experience := jsTrim f.experience
    reliability_rating := max 1 (min 5 f.reliabilityRating)
    would_recommend := f.wouldRecommend.getD true
    security_issues := if jsTrim f.securityIssues = "" then none else some (jsTrim f.securityIssues)
    bugs_glitches := if jsTrim f.bugsGlitches = "" then none else some (jsTrim f.bugsGlitches)
    database_issues := if jsTrim f.databaseIssues = "" then none else some (jsTrim f.databaseIssues)
    feature_requests := if jsTrim f.featureRequests = "" then none else some (jsTrim f.featureRequests)
    ui_ux_feedback := if jsTrim f.uiUxFeedback = "" then none else some (jsTrim f.uiUxFeedback)
    other_feedback := if jsTrim f.otherFeedback = "" then none else some (jsTrim f.otherFeedback) }

/-- The observable outcome of handling the insert response in onSubmit:
the review collection after the optimistic merge, whether the confetti
effect fired, and the surfaced remote error if any. -/
structure SubmitOutcome where
  reviews : List Review
  confetti : Bool
  toastError : Option String
deriving DecidableEq, Repr

/-- Embeds the response handling of onSubmit in src/app/page.tsx lines
596-613: a remote error is surfaced and nothing else happens; on success
the returned record is merged optimistically and burstConfetti() is
called unconditionally. -/
def handleInsertResult (prev : List Review) (res : Except String Review) : SubmitOutcome :=
  match res with
  | Except.error m => { reviews := prev, confetti := false, toastError := some m }
  | Except.ok ins => { reviews := mergeReview prev ins, confetti := true, toastError := none }

end QuizFlow

namespace BrainFuel

/-- The role union type of the simple variant: "student" | "teacher". -/
inductive Role where
  | student
  | teacher
deriving DecidableEq, Repr

/-- Modelled from the spec: the Review record shape of the simple
deployment (spec section 6, variant B; the defining module lib/reviews is
not under src).  The select list of src/unnamed/part_000 line 255 reads
exactly these columns. -/
structure Review where
  id : String
  created_at : String
  name : String
  role : Role
  rating : Int
  feedback : String
deriving DecidableEq, Repr

/-- Embeds the merge step of src/unnamed/part_000 lines 272-275 and 471-472:
prev.some((r) => r.id === next.id) ? prev : [next, ...prev]. -/
def mergeReview (prev : List Review) (next : Review) : List Review :=
  if prev.any (fun r => r.id == next.id) then prev else next :: prev

/-- The role filter union type "all" | "student" | "teacher". -/
inductive RoleFilter where
  | all
  | student
  | teacher
deriving DecidableEq, Repr

/-- The view state the display paginator depends on: the role filter, the
star filter (0 is the sentinel for any star) and the reveal count. -/
structure ViewState where
  roleFilter : RoleFilter
  starFilter : Nat
  visibleCount : Nat
deriving DecidableEq, Repr

/-- The user interactions that touch the view state. -/
inductive ViewEvent where
  | setRoleFilter (r : RoleFilter)
  | setStarFilter (k : Nat)
  | loadMore
deriving DecidableEq, Repr

/-- Embeds the view state transitions of src/unnamed/part_000: the effect
at line 163 runs whenever the value of roleFilter or starFilter changes
(React re-runs an effect when a dependency is no longer identical) and
sets the reveal count back to 12; the load-more button at line 1016 adds
12 to the reveal count. -/
def applyViewEvent (s : ViewState) (e : ViewEvent) : ViewState :=
  match e with
  | ViewEvent.setRoleFilter r =>
      if r = s.roleFilter then { s with roleFilter := r }
      else { s with roleFilter := r, visibleCount := 12 }
  | ViewEvent.setStarFilter k =>
      if k = s.starFilter then { s with starFilter := k }
      else { s with starFilter := k, visibleCount := 12 }
  | ViewEvent.loadMore => { s with visibleCount := s.visibleCount + 12 }

/-- Modelled from the spec: the ReviewInsert record shape of the simple
deployment; the field list follows the payload literal of
src/unnamed/part_000 line 465. -/
structure ReviewInsert where
  name : String
  role : Role
  rating : Int
  feedback : String
deriving DecidableEq, Repr

/-- What the submit handler decides to do before any network activity:
block with a validation message, or issue the one insert request with
the given payload. -/
inductive SubmitAction where
  | blocked (msg : String)
  | insert (payload : ReviewInsert)
deriving DecidableEq, Repr

/-- Embeds the validation and payload construction of onSubmit in
src/unnamed/part_000 lines 458-466: trim the name and feedback, clamp
the rating, block with a message when the trimmed name is shorter than 2
or the trimmed feedback shorter than 3, and otherwise insert the
sanitized payload. -/
def onSubmitAction (name : String) (role : Role) (rating : Int) (feedback : String) :
    SubmitAction :=
  let n2 := jsTrim name
  let fb := jsTrim feedback
  let sr := clampRating rating
  if n2.length < 2 then SubmitAction.blocked "Name must be at least 2 characters."
  else if fb.length < 3 then SubmitAction.blocked "Feedback must be at least 3 characters."
  else SubmitAction.insert { name := n2, role := role, rating := sr, feedback := fb }

/-- The observable outcome of handling the insert response. -/
structure SubmitOutcome where
  reviews : List Review
  confetti : Bool
  toastError : Option String
deriving DecidableEq, Repr

/-- Embeds the response handling of onSubmit in src/unnamed/part_000
lines 469-475: a remote error is surfaced and nothing else happens; on
success the returned record is merged optimistically and burstConfetti()
is called only when the clamped rating sr computed before the insert
equals 5. -/
def handleInsertResult (sr : Int) (prev : List Review) (res : Except String Review) :
    SubmitOutcome :=
  match res with
  | Except.error m => { reviews := prev, confetti := false, toastError := some m }
  | Except.ok ins =>
      { reviews := mergeReview prev ins, confetti := sr == 5, toastError := none }

/-- A concrete simple-variant review used by concrete evaluations. -/
def mkReview (i : String) (rating : Int) : Review :=
  { id := i, created_at := "2025-01-01", name := "Alex", role := Role.student,
    rating := rating, feedback := "nice" }

end BrainFuel

namespace QuizFlow

/-- A concrete rich-variant review used by concrete evaluations. -/
def mkReview (i : String) (rating : Int) : Review :=
  { id := i, created_at := "2025-01-01", name := "Alex", role := some Role.student,
    rating := rating, experience := "good", reliability_rating := 4,
    would_recommend := true, security_issues := none, bugs_glitches := none,
    database_issues := none, feature_requests := none, ui_ux_feedback := none,
    other_feedback := none }

/-- One page of exactly pageSize identical records. -/
def fullBatch : List Review := List.replicate pageSize (mkReview "p1" 5)

end QuizFlow

section WizardLemmas

open QuizFlow

lemma applyFormEvent_name_guard (w : Wizard) (e : FormEvent)
    (h : 1 ≤ w.step → 2 ≤ (jsTrim w.form.name).length) :
    1 ≤ (applyFormEvent w e).step → 2 ≤ (jsTrim (applyFormEvent w e).form.name).length := by
  cases e with
  | editName v =>
      by_cases h0 : w.step = 0
      · simp [applyFormEvent, h0]
      · simpa [applyFormEvent, h0] using h
  | editRole v =>
      by_cases h0 : w.step = 0
      · simp [applyFormEvent, h0]
      · simpa [applyFormEvent, h0] using h
  | editRating v =>
      by_cases h0 : w.step = 0
      · simp [applyFormEvent, h0]
      · simpa [applyFormEvent, h0] using h
  | editExperience v =>
      by_cases h1 : w.step = 1 <;> simpa [applyFormEvent, h1] using h
  | editReliability v =>
      by_cases h1 : w.step = 1 <;> simpa [applyFormEvent, h1] using h
  | editRecommend v =>
      by_cases h1 : w.step = 1 <;> simpa [applyFormEvent, h1] using h
  | editSecurity v =>
      by_cases h2 : w.step = 2 <;> simpa [applyFormEvent, h2] using h
  | editBugs v =>
      by_cases h2 : w.step = 2 <;> simpa [applyFormEvent, h2] using h
  | editDatabase v =>
      by_cases h2 : w.step = 2 <;> simpa [applyFormEvent, h2] using h
  | editFeatures v =>
      by_cases h3 : w.step = 3 <;> simpa [applyFormEvent, h3] using h
  | editUiUx v =>
      by_cases h3 : w.step = 3 <;> simpa [applyFormEvent, h3] using h
  | editOther v =>
      by_cases h3 : w.step = 3 <;> simpa [applyFormEvent, h3] using h
  | next =>
      cases hv : validateStep w.step w.form with
      | some m => simpa [applyFormEvent, hv] using h
      | none =>
          intro _
          simp only [applyFormEvent, hv]
          by_cases h0 : w.step = 0
          · rw [h0] at hv
            simp only [validateStep] at hv
            split_ifs at hv with hname hrate
            omega
          · exact h (by omega)
  | prev =>
      intro hs
      simp only [applyFormEvent] at hs ⊢
      exact h (by omega)
  | skip =>
      by_cases h2 : 2 ≤ w.step ∧ w.step < 3
      · intro _
        simp only [applyFormEvent, if_pos h2]
        exact h (by omega)
      · simpa [applyFormEvent, h2] using h
  | submit =>
      by_cases h3 : w.step = 3 <;> simpa [applyFormEvent, h3] using h
  | reset => simp [applyFormEvent]

lemma runWizard_name_guard (events : List FormEvent) :
    1 ≤ (runWizard events).step → 2 ≤ (jsTrim (runWizard events).form.name).length := by
  unfold runWizard
  have aux : ∀ (l : List FormEvent) (w : Wizard),
      (1 ≤ w.step → 2 ≤ (jsTrim w.form.name).length) →
      1 ≤ (l.foldl applyFormEvent w).step →
        2 ≤ (jsTrim (l.foldl applyFormEvent w).form.name).length := by
    intro l
    induction l with
    | nil => intro w h; simpa using h
    | cons e es ih =>
        intro w h
        simpa using ih (applyFormEvent w e) (applyFormEvent_name_guard w e h)
  exact aux events initWizard (by intro hs; simp [initWizard] at hs)

end WizardLemmas

/-- C1: any sequence of merge operations applied to an in-memory collection
whose identifiers are pairwise distinct (the paged-load result) keeps each
identifier exactly once, and each single merge is a no-op when the incoming
identifier is already present and a prepend at the head otherwise. -/
theorem merge_dedup_invariant (initial incoming : List QuizFlow.Review)
    (h : (initial.map QuizFlow.Review.id).Nodup) :
    ((incoming.foldl QuizFlow.mergeReview initial).map QuizFlow.Review.id).Nodup ∧
    (∀ (prev : List QuizFlow.Review) (next : QuizFlow.Review),
      next.id ∈ prev.map QuizFlow.Review.id → QuizFlow.mergeReview prev next = prev) ∧
    (∀ (prev : List QuizFlow.Review) (next : QuizFlow.Review),
      next.id ∉ prev.map QuizFlow.Review.id →
        QuizFlow.mergeReview prev next = next :: prev) :=
  ⟨foldl_mergeReview_nodup incoming initial h, mergeReview_mem, mergeReview_not_mem⟩

/-- Witness for C1 at a concrete input: one loaded review with id a, then a
re-delivered record with id a (dropped) and a fresh record with id b. -/
theorem merge_dedup_invariant_witness :
    (([QuizFlow.mkReview "a" 5].map QuizFlow.Review.id).Nodup) ∧
    ((([QuizFlow.mkReview "a" 4, QuizFlow.mkReview "b" 3].foldl QuizFlow.mergeReview
        [QuizFlow.mkReview "a" 5]).map QuizFlow.Review.id).Nodup ∧
      (∀ (prev : List QuizFlow.Review) (next : QuizFlow.Review),
        next.id ∈ prev.map QuizFlow.Review.id → QuizFlow.mergeReview prev next = prev) ∧
      (∀ (prev : List QuizFlow.Review) (next : QuizFlow.Review),
        next.id ∉ prev.map QuizFlow.Review.id →
          QuizFlow.mergeReview prev next = next :: prev)) :=
  ⟨by decide,
    merge_dedup_invariant [QuizFlow.mkReview "a" 5]
      [QuizFlow.mkReview "a" 4, QuizFlow.mkReview "b" 3] (by decide)⟩

/-- C2: the aggregator returns average 0 on the empty collection and
otherwise the one-decimal rounding of the clamped rating sum divided by the
count; its histogram always has exactly the five buckets 1..5, each bucket
counts the reviews whose clamped rating equals that star, the bucket counts
sum to the collection size, and the empty collection yields all buckets 0. -/
theorem distribution_correct (reviews : List QuizFlow.Review) :
    (QuizFlow.distribution reviews).avg = QuizFlow.avgSpec reviews ∧
    (QuizFlow.distribution ([] : List QuizFlow.Review)).avg = 0 ∧
    (QuizFlow.distribution reviews).counts.s1
      = (reviews.filter (fun r => clampRating r.rating = 1)).length ∧
    (QuizFlow.distribution reviews).counts.s2
      = (reviews.filter (fun r => clampRating r.rating = 2)).length ∧
    (QuizFlow.distribution reviews).counts.s3
      = (reviews.filter (fun r => clampRating r.rating = 3)).length ∧
    (QuizFlow.distribution reviews).counts.s4
      = (reviews.filter (fun r => clampRating r.rating = 4)).length ∧
    (QuizFlow.distribution reviews).counts.s5
      = (reviews.filter (fun r => clampRating r.rating = 5)).length ∧
    (QuizFlow.distribution reviews).counts.s1 + (QuizFlow.distribution reviews).counts.s2
      + (QuizFlow.distribution reviews).counts.s3 + (QuizFlow.distribution reviews).counts.s4
      + (QuizFlow.distribution reviews).counts.s5 = reviews.length ∧
    (QuizFlow.distribution ([] : List QuizFlow.Review)).counts = ⟨0, 0, 0, 0, 0⟩ := by
  have hs1 := foldl_bump_proj QuizFlow.Counts.s1 1 bump_s1 reviews ⟨0, 0, 0, 0, 0⟩
  have hs2 := foldl_bump_proj QuizFlow.Counts.s2 2 bump_s2 reviews ⟨0, 0, 0, 0, 0⟩
  have hs3 := foldl_bump_proj QuizFlow.Counts.s3 3 bump_s3 reviews ⟨0, 0, 0, 0, 0⟩
  have hs4 := foldl_bump_proj QuizFlow.Counts.s4 4 bump_s4 reviews ⟨0, 0, 0, 0, 0⟩
  have hs5 := foldl_bump_proj QuizFlow.Counts.s5 5 bump_s5 reviews ⟨0, 0, 0, 0, 0⟩
  refine ⟨?_, by simp [QuizFlow.distribution], ?_, ?_, ?_, ?_, ?_, ?_,
    by simp [QuizFlow.distribution]⟩
  · simp [QuizFlow.distribution, QuizFlow.avgSpec, ratingSum_eq_map_sum]
  · simpa [QuizFlow.distribution] using hs1
  · simpa [QuizFlow.distribution] using hs2
  · simpa [QuizFlow.distribution] using hs3
  · simpa [QuizFlow.distribution] using hs4
  · simpa [QuizFlow.distribution] using hs5
  · simp only [QuizFlow.distribution]
    rw [hs1, hs2, hs3, hs4, hs5] at *
    simpa using filter_clamp_partition reviews

/-- C3 counterexample: a full first page (500 records, among them the record
with id p1) followed by a failing second fetch leaves the in-memory
collection exactly as it was before the load (here empty), so the pages
already fetched before the failure are not kept visible. -/
theorem load_failure_drops_partial :
    QuizFlow.mkReview "p1" 5 ∈ QuizFlow.fullBatch ∧
    QuizFlow.runLoad
        [QuizFlow.PageResult.ok QuizFlow.fullBatch, QuizFlow.PageResult.fail "network down"]
        { reviews := [], errMsg := none }
      = { reviews := [], errMsg := some "network down" } := by
  constructor
  · unfold QuizFlow.fullBatch
    exact List.mem_replicate.mpr ⟨by decide, rfl⟩
  · have h := runLoadAux_fullPages [QuizFlow.fullBatch] []
      [QuizFlow.PageResult.fail "network down"] { reviews := [], errMsg := none }
      (by simp [QuizFlow.fullBatch])
    simpa [QuizFlow.runLoad, QuizFlow.runLoadAux] using h

/-- C3 amended: if any page fetch fails after a run of full pages, the
loader aborts the remaining pagination without retrying and surfaces the
error message, but the pages fetched during the failed load are discarded:
the in-memory collection keeps exactly the value it had before the load
(records are committed only when the whole pagination succeeds). -/
theorem load_failure_aborts (good : List (List QuizFlow.Review)) (m : String)
    (rest : List QuizFlow.PageResult) (s : QuizFlow.LoadState)
    (hgood : ∀ b ∈ good, pageSize ≤ b.length) :
    QuizFlow.runLoad (good.map QuizFlow.PageResult.ok ++ QuizFlow.PageResult.fail m :: rest) s
      = { reviews := s.reviews, errMsg := some m } := by
  unfold QuizFlow.runLoad
  rw [runLoadAux_fullPages good [] (QuizFlow.PageResult.fail m :: rest) _ hgood]
  simp [QuizFlow.runLoadAux]

/-- Witness for C3 amended: one full page, then a failure; the collection
keeps its pre-load record with id old and the message boom is surfaced. -/
theorem load_failure_aborts_witness :
    (∀ b ∈ [QuizFlow.fullBatch], pageSize ≤ b.length) ∧
    QuizFlow.runLoad
        ([QuizFlow.fullBatch].map QuizFlow.PageResult.ok
          ++ QuizFlow.PageResult.fail "boom" :: [QuizFlow.PageResult.ok []])
        { reviews := [QuizFlow.mkReview "old" 3], errMsg := none }
      = { reviews := [QuizFlow.mkReview "old" 3], errMsg := some "boom" } :=
  ⟨by simp [QuizFlow.fullBatch],
    load_failure_aborts [QuizFlow.fullBatch] "boom" [QuizFlow.PageResult.ok []]
      { reviews := [QuizFlow.mkReview "old" 3], errMsg := none }
      (by simp [QuizFlow.fullBatch])⟩

/-- C5: against a remote collection of N records with page size 500, the
loop that stops at the first short page issues ceil(N / 500) requests when
N is not a multiple of 500, and N / 500 + 1 requests (one request when
N = 0) when it is. -/
theorem pagination_request_count (N : Nat) :
    QuizFlow.pagesRequested N
      = if N % pageSize = 0 then N / pageSize + 1 else (N + pageSize - 1) / pageSize := by
  induction N using Nat.strong_induction_on with
  | _ N ih =>
    rw [QuizFlow.pagesRequested]
    by_cases h : N < pageSize
    · rw [if_pos h]
      simp only [pageSize] at *
      split_ifs <;> omega
    · rw [if_neg h]
      rw [ih (N - pageSize) (by simp only [pageSize] at *; omega)]
      simp only [pageSize] at *
      split_ifs <;> omega

/-- C9: when the paged load completes successfully (a run of full pages
closed by one short page), the collection is replaced wholesale by the
concatenation of the fetched pages; any record that was in the collection
while the loop ran but is not contained in the fetched pages is absent
afterwards. -/
theorem load_success_replaces (good : List (List QuizFlow.Review))
    (tailPage : List QuizFlow.Review) (s : QuizFlow.LoadState)
    (hgood : ∀ b ∈ good, pageSize ≤ b.length) (hshort : tailPage.length < pageSize) :
    QuizFlow.runLoad (good.map QuizFlow.PageResult.ok ++ [QuizFlow.PageResult.ok tailPage]) s
      = { reviews := good.flatten ++ tailPage, errMsg := none } ∧
    (∀ r ∈ s.reviews, r ∉ good.flatten ++ tailPage →
      r ∉ (QuizFlow.runLoad (good.map QuizFlow.PageResult.ok
        ++ [QuizFlow.PageResult.ok tailPage]) s).reviews) := by
  have hmain : QuizFlow.runLoad
      (good.map QuizFlow.PageResult.ok ++ [QuizFlow.PageResult.ok tailPage]) s
      = { reviews := good.flatten ++ tailPage, errMsg := none } := by
    unfold QuizFlow.runLoad
    rw [runLoadAux_fullPages good [] [QuizFlow.PageResult.ok tailPage] _ hgood]
    simp [QuizFlow.runLoadAux, if_pos hshort]
  refine ⟨hmain, ?_⟩
  intro r _ hnot
  rw [hmain]
  exact hnot

/-- Witness for C9: a full page and a short page replace a collection that
held a record with id ghost; the ghost record is absent afterwards. -/
theorem load_success_replaces_witness :
    (∀ b ∈ [QuizFlow.fullBatch], pageSize ≤ b.length) ∧
    ([QuizFlow.mkReview "q" 2] : List QuizFlow.Review).length < pageSize ∧
    (QuizFlow.runLoad ([QuizFlow.fullBatch].map QuizFlow.PageResult.ok
        ++ [QuizFlow.PageResult.ok [QuizFlow.mkReview "q" 2]])
        { reviews := [QuizFlow.mkReview "ghost" 5], errMsg := none }
      = { reviews := [QuizFlow.fullBatch].flatten ++ [QuizFlow.mkReview "q" 2],
          errMsg := none } ∧
    (∀ r ∈ [QuizFlow.mkReview "ghost" 5],
      r ∉ [QuizFlow.fullBatch].flatten ++ [QuizFlow.mkReview "q" 2] →
      r ∉ (QuizFlow.runLoad ([QuizFlow.fullBatch].map QuizFlow.PageResult.ok
        ++ [QuizFlow.PageResult.ok [QuizFlow.mkReview "q" 2]])
        { reviews := [QuizFlow.mkReview "ghost" 5], errMsg := none }).reviews)) :=
  ⟨by simp [QuizFlow.fullBatch], by decide,
    load_success_replaces [QuizFlow.fullBatch] [QuizFlow.mkReview "q" 2]
      { reviews := [QuizFlow.mkReview "ghost" 5], errMsg := none }
      (by simp [QuizFlow.fullBatch]) (by decide)⟩

/-- C4: whenever the form state reachable through the multi-step UI has a
trimmed name shorter than 2 characters, the wizard is still on step 0, the
submit action cannot issue the remote insert (it is only rendered on step
3 and leaves the state untouched before that), and advancing shows the
field-level name message; in the simple variant the submit handler itself
blocks a short name with a message before any network activity. -/
theorem validation_blocks_network (events : List QuizFlow.FormEvent)
    (hshort : (jsTrim (QuizFlow.runWizard events).form.name).length < 2) :
    (QuizFlow.runWizard events).step = 0 ∧
    QuizFlow.applyFormEvent (QuizFlow.runWizard events) QuizFlow.FormEvent.submit
      = QuizFlow.runWizard events ∧
    QuizFlow.applyFormEvent (QuizFlow.runWizard events) QuizFlow.FormEvent.next
      = { QuizFlow.runWizard events with
          fieldMessage := some "Please enter your name (at least 2 characters)." } ∧
    (∀ (name feedback : String) (role : BrainFuel.Role) (rating : Int),
      (jsTrim name).length < 2 →
        BrainFuel.onSubmitAction name role rating feedback
          = BrainFuel.SubmitAction.blocked "Name must be at least 2 characters.") := by
  have hstep : (QuizFlow.runWizard events).step = 0 := by
    by_contra hne
    exact absurd (runWizard_name_guard events (by omega)) (by omega)
  refine ⟨hstep, ?_, ?_, ?_⟩
  · simp [QuizFlow.applyFormEvent, hstep]
  · have hv : QuizFlow.validateStep (QuizFlow.runWizard events).step
        (QuizFlow.runWizard events).form
        = some "Please enter your name (at least 2 characters)." := by
      rw [hstep]
      simp only [QuizFlow.validateStep]
      rw [if_pos hshort]
    simp [QuizFlow.applyFormEvent, hv]
  · intro name feedback role rating hname
    simp only [BrainFuel.onSubmitAction]
    rw [if_pos hname]

/-- Witness for C4: after the single interaction of typing the one-letter
name K the wizard is on step 0 with a short name; submit is inert, next is
blocked with the name message, and the simple-variant handler blocks the
empty name. -/
theorem validation_blocks_network_witness :
    (jsTrim (QuizFlow.runWizard [QuizFlow.FormEvent.editName "K"]).form.name).length < 2 ∧
    ((QuizFlow.runWizard [QuizFlow.FormEvent.editName "K"]).step = 0 ∧
      QuizFlow.applyFormEvent (QuizFlow.runWizard [QuizFlow.FormEvent.editName "K"])
          QuizFlow.FormEvent.submit
        = QuizFlow.runWizard [QuizFlow.FormEvent.editName "K"] ∧
      QuizFlow.applyFormEvent (QuizFlow.runWizard [QuizFlow.FormEvent.editName "K"])
          QuizFlow.FormEvent.next
        = { QuizFlow.runWizard [QuizFlow.FormEvent.editName "K"] with
            fieldMessage := some "Please enter your name (at least 2 characters)." } ∧
      (∀ (name feedback : String) (role : BrainFuel.Role) (rating : Int),
        (jsTrim name).length < 2 →
          BrainFuel.onSubmitAction name role rating feedback
            = BrainFuel.SubmitAction.blocked "Name must be at least 2 characters.")) :=
  ⟨by decide, validation_blocks_network [QuizFlow.FormEvent.editName "K"] (by decide)⟩

/-- C6: changing the role filter or the star filter to a value different
from the current one resets the reveal count to 12, whatever value prior
load-more clicks had driven it to. -/
theorem filter_reset (s : BrainFuel.ViewState) (r : BrainFuel.RoleFilter) (k : Nat)
    (hr : r ≠ s.roleFilter) (hk : k ≠ s.starFilter) :
    (BrainFuel.applyViewEvent s (BrainFuel.ViewEvent.setRoleFilter r)).visibleCount = 12 ∧
    (BrainFuel.applyViewEvent s (BrainFuel.ViewEvent.setStarFilter k)).visibleCount = 12 := by
  constructor
  · simp [BrainFuel.applyViewEvent, hr]
  · simp [BrainFuel.applyViewEvent, hk]

/-- Witness for C6: a view that had revealed 300 records drops back to 12
when the role filter moves to student and when the star filter moves to 5. -/
theorem filter_reset_witness :
    (BrainFuel.RoleFilter.student
      ≠ (⟨BrainFuel.RoleFilter.all, 0, 300⟩ : BrainFuel.ViewState).roleFilter) ∧
    ((5 : Nat) ≠ (⟨BrainFuel.RoleFilter.all, 0, 300⟩ : BrainFuel.ViewState).starFilter) ∧
    ((BrainFuel.applyViewEvent ⟨BrainFuel.RoleFilter.all, 0, 300⟩
        (BrainFuel.ViewEvent.setRoleFilter BrainFuel.RoleFilter.student)).visibleCount = 12 ∧
      (BrainFuel.applyViewEvent ⟨BrainFuel.RoleFilter.all, 0, 300⟩
        (BrainFuel.ViewEvent.setStarFilter 5)).visibleCount = 12) :=
  ⟨by decide, by decide,
    filter_reset ⟨BrainFuel.RoleFilter.all, 0, 300⟩ BrainFuel.RoleFilter.student 5
      (by decide) (by decide)⟩

/-- C7: every insert payload carries the rating and the reliability rating
clamped to [1, 5], the name and experience trimmed, and each optional text
field as the trimmed text or the explicit absent marker when the trimmed
text is empty, never as the empty string; the simple-variant handler
either inserts the payload with trimmed name and feedback and clamped
rating, or blocks without building a payload at all. -/
theorem payload_sanitized (f : QuizFlow.FormData) (name feedback : String)
    (role : BrainFuel.Role) (rating : Int) :
    1 ≤ (QuizFlow.buildPayload f).rating ∧ (QuizFlow.buildPayload f).rating ≤ 5 ∧
    1 ≤ (QuizFlow.buildPayload f).reliability_rating ∧
    (QuizFlow.buildPayload f).reliability_rating ≤ 5 ∧
    (QuizFlow.buildPayload f).name = jsTrim f.name ∧
    (QuizFlow.buildPayload f).experience = jsTrim f.experience ∧
    (QuizFlow.buildPayload f).security_issues
      = (if jsTrim f.securityIssues = "" then none else some (jsTrim f.securityIssues)) ∧
    (QuizFlow.buildPayload f).bugs_glitches
      = (if jsTrim f.bugsGlitches = "" then none else some (jsTrim f.bugsGlitches)) ∧
    (QuizFlow.buildPayload f).database_issues
      = (if jsTrim f.databaseIssues = "" then none else some (jsTrim f.databaseIssues)) ∧
    (QuizFlow.buildPayload f).feature_requests
      = (if jsTrim f.featureRequests = "" then none else some (jsTrim f.featureRequests)) ∧
    (QuizFlow.buildPayload f).ui_ux_feedback
      = (if jsTrim f.uiUxFeedback = "" then none else some (jsTrim f.uiUxFeedback)) ∧
    (QuizFlow.buildPayload f).other_feedback
      = (if jsTrim f.otherFeedback = "" then none else some (jsTrim f.otherFeedback)) ∧
    (QuizFlow.buildPayload f).security_issues ≠ some "" ∧
    (QuizFlow.buildPayload f).bugs_glitches ≠ some "" ∧
    (QuizFlow.buildPayload f).database_issues ≠ some "" ∧
    (QuizFlow.buildPayload f).feature_requests ≠ some "" ∧
    (QuizFlow.buildPayload f).ui_ux_feedback ≠ some "" ∧
    (QuizFlow.buildPayload f).other_feedback ≠ some "" ∧
    (BrainFuel.onSubmitAction name role rating feedback
        = BrainFuel.SubmitAction.insert
            { name := jsTrim name, role := role, rating := clampRating rating,
              feedback := jsTrim feedback } ∨
      (∃ m, BrainFuel.onSubmitAction name role rating feedback
        = BrainFuel.SubmitAction.blocked m)) := by
  refine ⟨?_, ?_, ?_, ?_, rfl, rfl, rfl, rfl, rfl, rfl, rfl, rfl,
    ?_, ?_, ?_, ?_, ?_, ?_, ?_⟩
  · simp only [QuizFlow.buildPayload]; omega
  · simp only [QuizFlow.buildPayload]; omega
  · simp only [QuizFlow.buildPayload]; omega
  · simp only [QuizFlow.buildPayload]; omega
  · simp only [QuizFlow.buildPayload]; split_ifs with h <;> simp [h]
  · simp only [QuizFlow.buildPayload]; split_ifs with h <;> simp [h]
  · simp only [QuizFlow.buildPayload]; split_ifs with h <;> simp [h]
  · simp only [QuizFlow.buildPayload]; split_ifs with h <;> simp [h]
  · simp only [QuizFlow.buildPayload]; split_ifs with h <;> simp [h]
  · simp only [QuizFlow.buildPayload]; split_ifs with h <;> simp [h]
  · simp only [BrainFuel.onSubmitAction]
    split_ifs with h1 h2
    · exact Or.inr ⟨_, rfl⟩
    · exact Or.inr ⟨_, rfl⟩
    · exact Or.inl rfl

/-- C10: in the rich deployment, a form whose would-recommend answer is
still null produces an insert payload whose would_recommend field is true:
the missing answer is coerced to a positive recommendation. -/
theorem recommend_coalesce (f : QuizFlow.FormData) :
    (QuizFlow.buildPayload { f with wouldRecommend := none }).would_recommend = true := rfl

/-- C8 counterexample: in the rich deployment a successful submission whose
clamped rating is 1, strictly below the celebratory threshold 5, still
triggers the confetti effect, because burstConfetti() is called on every
success. -/
theorem confetti_below_threshold :
    clampRating 1 < 5 ∧
    (QuizFlow.handleInsertResult [] (Except.ok (QuizFlow.mkReview "low" 1))).confetti
      = true := by
  constructor
  · decide
  · rfl

/-- C8 amended: a failed submission never triggers the confetti effect in
either deployment; in the simple deployment a successful submission
triggers it exactly when the clamped rating equals 5 (equivalently, is at
or above the threshold 5); in the rich deployment every successful
submission triggers it, regardless of the rating. -/
theorem confetti_trigger_characterization :
    (∀ (prev : List QuizFlow.Review) (m : String),
      (QuizFlow.handleInsertResult prev (Except.error m)).confetti = false) ∧
    (∀ (prev : List QuizFlow.Review) (ins : QuizFlow.Review),
      (QuizFlow.handleInsertResult prev (Except.ok ins)).confetti = true) ∧
    (∀ (sr : Int) (prev : List BrainFuel.Review) (m : String),
      (BrainFuel.handleInsertResult sr prev (Except.error m)).confetti = false) ∧
    (∀ (sr : Int) (prev : List BrainFuel.Review) (ins : BrainFuel.Review),
      (BrainFuel.handleInsertResult sr prev (Except.ok ins)).confetti = (sr == 5)) ∧
    (∀ n : Int, clampRating n = 5 ↔ 5 ≤ clampRating n) := by
  refine ⟨fun _ _ => rfl, fun _ _ => rfl, fun _ _ _ => rfl, fun _ _ _ => rfl, ?_⟩
  intro n
  unfold clampRating
  omega
